import Mathlib

/-!
Verification of the AWG raw-TCP streaming server
(`petalinux_web/awg_raw_tcp`): word codec, playlist store, preload
protocol handlers, periodic player tick, reset sequencer and the
notification channel, shallowly embedded in Lean.

Modelling conventions:
* machine integers are `Nat`; a C mask `x & (2^k - 1)` is written
  `x % 2^k`, a shift `x << k` is `x * 2^k`; bitwise OR of the
  (disjoint) packed fields is kept as `|||`;
* C functions that return `bool` while mutating a structure through a
  pointer are modelled as functions returning `Bool × _`;
* `malloc`/`calloc`/`realloc` outcomes are an explicit `Bool` oracle
  argument (`allocOk`);
* socket reads, `DPRINT` logging and the `g_loading_in_progress`
  bookkeeping flags (used only for disconnect cancellation) are not
  modelled; MMIO output (`awg_send_words32`) and notifier calls
  (`send_status_update`) are collected as explicit event lists.
-/

namespace AWG

/-! ## Word codec (`awg_server_raw_queue.c` lines 81-121,
`awg_core_mmap.c` lines 110-121) -/
/-- C macro `PACK_WORD(cmd, ch, tone, data20)` from `awg_server_raw_queue.c`:
`((cmd & 0xF) << 28) | ((ch & 1) << 27) | ((tone & 0x7) << 24) | (data20 & 0xFFFFF)`. -/
def PACK_WORD (cmd ch tone data20 : Nat) : Nat :=
  ((cmd % 16) * 2 ^ 28) ||| ((ch % 2) * 2 ^ 27) ||| ((tone % 8) * 2 ^ 24) ||| (data20 % 2 ^ 20)

/-- C source: `MAKE_INDEX_WORD(ch, tone, idx20) = PACK_WORD(0x1, ch, tone, idx20)`. -/
def MAKE_INDEX_WORD (ch tone idx20 : Nat) : Nat := PACK_WORD 1 ch tone idx20

/-- C source: `MAKE_GAIN_WORD(ch, tone, g20) = PACK_WORD(0x2, ch, tone, g20)`. -/
def MAKE_GAIN_WORD (ch tone g20 : Nat) : Nat := PACK_WORD 2 ch tone g20

/-- C source: `MAKE_COMMIT_WORD() = PACK_WORD(0xF, 0, 0, 0)`. -/
def MAKE_COMMIT_WORD : Nat := PACK_WORD 15 0 0 0

/-- C source: `pack_sel(ch, tone)` from `awg_core_mmap.c`:
`((ch & 1) << 27) | ((tone & 7) << 24)`. -/
def pack_sel (ch tone : Nat) : Nat := ((ch % 2) * 2 ^ 27) ||| ((tone % 8) * 2 ^ 24)

/-- C source: `make_index_word(ch, tone, idx20)` from `awg_core_mmap.c`:
`(0x1u << 28) | pack_sel(ch, tone) | (idx20 & 0xFFFFF)`. -/
def make_index_word (ch tone idx20 : Nat) : Nat :=
  (1 * 2 ^ 28) ||| pack_sel ch tone ||| (idx20 % 2 ^ 20)

/-- C source: `make_gain_word(ch, tone, g20)` from `awg_core_mmap.c`:
`(0x2u << 28) | pack_sel(ch, tone) | (g20 & 0xFFFFF)`. -/
def make_gain_word (ch tone g20 : Nat) : Nat :=
  (2 * 2 ^ 28) ||| pack_sel ch tone ||| (g20 % 2 ^ 20)

/-- C source: `make_commit_word()` from `awg_core_mmap.c`: `0xFu << 28`. -/
def make_commit_word : Nat := 15 * 2 ^ 28

/-- The static array `ZERO_GAIN_FRAME` of `awg_server_raw_queue.c` lines 91-114:
for channel 0 then channel 1, for each tone 0..7, an INDEX word with
payload 0 followed by a GAIN word with payload 0, then one COMMIT word. -/
def ZERO_GAIN_FRAME : List Nat :=
  [ MAKE_INDEX_WORD 0 0 0, MAKE_GAIN_WORD 0 0 0,
    MAKE_INDEX_WORD 0 1 0, MAKE_GAIN_WORD 0 1 0,
    MAKE_INDEX_WORD 0 2 0, MAKE_GAIN_WORD 0 2 0,
    MAKE_INDEX_WORD 0 3 0, MAKE_GAIN_WORD 0 3 0,
    MAKE_INDEX_WORD 0 4 0, MAKE_GAIN_WORD 0 4 0,
    MAKE_INDEX_WORD 0 5 0, MAKE_GAIN_WORD 0 5 0,
    MAKE_INDEX_WORD 0 6 0, MAKE_GAIN_WORD 0 6 0,
    MAKE_INDEX_WORD 0 7 0, MAKE_GAIN_WORD 0 7 0,
    MAKE_INDEX_WORD 1 0 0, MAKE_GAIN_WORD 1 0 0,
    MAKE_INDEX_WORD 1 1 0, MAKE_GAIN_WORD 1 1 0,
    MAKE_INDEX_WORD 1 2 0, MAKE_GAIN_WORD 1 2 0,
    MAKE_INDEX_WORD 1 3 0, MAKE_GAIN_WORD 1 3 0,
    MAKE_INDEX_WORD 1 4 0, MAKE_GAIN_WORD 1 4 0,
    MAKE_INDEX_WORD 1 5 0, MAKE_GAIN_WORD 1 5 0,
    MAKE_INDEX_WORD 1 6 0, MAKE_GAIN_WORD 1 6 0,
    MAKE_INDEX_WORD 1 7 0, MAKE_GAIN_WORD 1 7 0,
    MAKE_COMMIT_WORD ]

/-- C source: `ZERO_GAIN_FRAME_COUNT = sizeof(ZERO_GAIN_FRAME) / sizeof(uint32_t)`. -/
def ZERO_GAIN_FRAME_COUNT : Nat := ZERO_GAIN_FRAME.length

/-- The word sequence built by `awg_zero_output` in `awg_core_mmap.c`
lines 259-280: a GAIN word with payload 0 for `ch` 0..1 × `tone` 0..7
(channel-major, tone ascending), then one COMMIT — 17 words. -/
def awg_zero_output_words : List Nat :=
  ((List.range 2).flatMap fun ch => (List.range 8).map fun tone => make_gain_word ch tone 0)
    ++ [make_commit_word]

/-- The all-silence frame as the spec's words describe it (§4.1): for each
`ch ∈ {0,1}` and `tone ∈ 0..7` the word `pack_gain(ch,tone,0)` in
channel-major tone-ascending order (16 words), then one `pack_commit()` —
a 17-word sequence. Stated from the spec for comparison against the
source definitions `ZERO_GAIN_FRAME` and `awg_zero_output_words`. -/
def specSilenceFrame : List Nat :=
  ((List.range 2).flatMap fun ch => (List.range 8).map fun tone => MAKE_GAIN_WORD ch tone 0)
    ++ [MAKE_COMMIT_WORD]

/-! ## Playlist store (`awg_server_raw_queue.c` lines 119-266) -/
def SHUTDOWN_FLUSH_FRAMES : Nat := 100

def IO_TIMEOUT_MS : Nat := 5000

def MAX_WORDS_PER_FRAME : Nat := 64

def GROW_WORDS_STEP : Nat := 4096

/-- C source: `awg_list_t`. `offsets`/`counts` model the two calloc'd metadata arrays,
with `allocated = false` standing for the NULL pointers left by
`clear_list_fully`; `words` models the first `words_used` entries of the
word buffer (the only entries the code ever writes or reads) and
`words_cap` its allocated capacity. -/
structure AwgList where
  offsets : List Nat
  counts : List Nat
  allocated : Bool
  total_frames : Nat
  loaded_frames : Nat
  ready : Bool
  words : List Nat
  words_cap : Nat
  words_used : Nat
deriving DecidableEq

/-- The all-zero struct produced by `memset(L, 0, sizeof(awg_list_t))`. -/
def emptyList : AwgList :=
  { offsets := [], counts := [], allocated := false, total_frames := 0,
    loaded_frames := 0, ready := false, words := [], words_cap := 0, words_used := 0 }

/-- C source: `clear_list_fully` lines 189-198: free all three buffers and zero the
struct. -/
def clear_list_fully (_L : AwgList) : AwgList := emptyList

/-- C source: `prepare_list_for_preload` lines 200-213: clear, then calloc zeroed
`offsets`/`counts` arrays for `total_frames` frames; on allocation failure
clear again and report `false`. -/
def prepare_list_for_preload (allocOk : Bool) (_L : AwgList) (total_frames : Nat) :
    Bool × AwgList :=
  if allocOk then
    (true, { emptyList with
      offsets := List.replicate total_frames 0,
      counts := List.replicate total_frames 0,
      allocated := true,
      total_frames := total_frames })
  else (false, emptyList)

/-- The `while (cap < want) cap += GROW_WORDS_STEP` loop of
`ensure_words_cap`. -/
def growCap (cap want : Nat) : Nat :=
  if cap < want then growCap (cap + GROW_WORDS_STEP) want else cap
termination_by want - cap
decreasing_by
  have hg : 0 < GROW_WORDS_STEP := by decide
  omega

/-- C source: `ensure_words_cap` lines 215-228. `realloc` keeps the stored words and
only enlarges the capacity; its failure (oracle `allocOk = false`) leaves
the list untouched. -/
def ensure_words_cap (allocOk : Bool) (L : AwgList) (need_more : Nat) :
    Bool × AwgList :=
  if L.words_used + need_more ≤ L.words_cap then (true, L)
  else
    let want := L.words_used + need_more
    let cap0 := if L.words_cap = 0 then GROW_WORDS_STEP else L.words_cap
    if allocOk then (true, { L with words_cap := growCap cap0 want }) else (false, L)

/-- C source: `push_frame` lines 230-245: validate, grow the buffer, memcpy the
`count` words of `w` at offset `words_used` and record the frame slice. -/
def push_frame (allocOk : Bool) (L : AwgList) (w : List Nat) (count : Nat) :
    Bool × AwgList :=
  if ¬ L.allocated then (false, L)
  else if L.total_frames ≤ L.loaded_frames then (false, L)
  else if count = 0 ∨ MAX_WORDS_PER_FRAME < count then (false, L)
  else
    match ensure_words_cap allocOk L count with
    | (false, L1) => (false, L1)
    | (true, L1) =>
      (true, { L1 with
        words := L1.words ++ w.take count,
        words_used := L1.words_used + count,
        offsets := L1.offsets.set L1.loaded_frames L1.words_used,
        counts := L1.counts.set L1.loaded_frames count,
        loaded_frames := L1.loaded_frames + 1 })

/-- The `for` loop of `load_zero_gain_list` lines 251-258 (remaining
iteration count as the recursion argument), followed by `L->ready = true`.
A failed push clears the list and aborts. -/
def load_zero_loop (allocOk : Bool) (L : AwgList) : Nat → Bool × AwgList
  | 0 => (true, { L with ready := true })
  | n + 1 =>
    match push_frame allocOk L ZERO_GAIN_FRAME ZERO_GAIN_FRAME_COUNT with
    | (false, _) => (false, emptyList)
    | (true, L1) => load_zero_loop allocOk L1 n

/-- C source: `load_zero_gain_list` lines 247-259. -/
def load_zero_gain_list (allocOk : Bool) (L : AwgList) (num_frames : Nat) :
    Bool × AwgList :=
  match prepare_list_for_preload allocOk L num_frames with
  | (false, L1) => (false, L1)
  | (true, L1) => load_zero_loop allocOk L1 num_frames

/-! ## Server state (`awg_srv_t`, `g_list_status`) -/
/-- C source: `awg_srv_t` lines 136-146. The mutex, the player thread handle and
`period_us` (sleep timing only) are not modelled. -/
structure AwgSrv where
  list0 : AwgList
  list1 : AwgList
  playing : Bool
  cur_list : Nat
  cur_frame : Nat
  next_list : Nat
deriving DecidableEq

def getList (s : AwgSrv) (i : Nat) : AwgList := if i = 0 then s.list0 else s.list1

def setList (s : AwgSrv) (i : Nat) (L : AwgList) : AwgSrv :=
  if i = 0 then { s with list0 := L } else { s with list1 := L }

/-- C source: `enum list_status` in `awg_server_raw_shared.h` declares `LIST_IDLE` and
`LIST_FULL`; `awg_server_raw_queue.c` additionally assigns `LIST_LOADING`
and `LIST_READY` (values declared only in a notifier variant that is not in
the tree), so the status type carries all four. -/
inductive ListStatus where
  | idle
  | full
  | loading
  | ready
deriving DecidableEq

/-- Combined queue-server state: `G` plus the shared `g_list_status[2]`. -/
structure QState where
  srv : AwgSrv
  status0 : ListStatus
  status1 : ListStatus
deriving DecidableEq

def getStatus (q : QState) (i : Nat) : ListStatus :=
  if i = 0 then q.status0 else q.status1

def setStatus (q : QState) (i : Nat) (st : ListStatus) : QState :=
  if i = 0 then { q with status0 := st } else { q with status1 := st }

/-! ## Preload protocol handlers -/
/-- C source: `do_preload_begin` lines 496-517: validate `list_id ≤ 1` and
`1 ≤ total_frames ≤ 2000000`, then prepare the list; on success set the
status to LOADING and emit one `send_status_update(list_id)` (third
component). -/
def do_preload_begin (allocOk : Bool) (q : QState) (list_id total_frames : Nat) :
    Bool × QState × List Nat :=
  if 1 < list_id then (false, q, [])
  else if total_frames = 0 ∨ 2000000 < total_frames then (false, q, [])
  else
    match prepare_list_for_preload allocOk (getList q.srv list_id) total_frames with
    | (ok, L1) =>
      let q1 : QState := { q with srv := setList q.srv list_id L1 }
      if ok then (true, setStatus q1 list_id .loading, [list_id])
      else (false, q1, [])

/-- The auto-start block shared verbatim by `do_preload_push` (lines
581-588) and `do_preload_end` (lines 618-625):
`G.playing = true; G.cur_list = list_id; G.next_list = 1 - list_id;
G.cur_frame = 0;` (plus `start_player_if_needed()`, thread management not
modelled). -/
def startPlaying (s : AwgSrv) (list_id : Nat) : AwgSrv :=
  { s with
    playing := true,
    cur_list := list_id,
    next_list := 1 - list_id,
    cur_frame := 0 }

/-- C source: `do_preload_push` lines 520-592 after the socket reads: the header
fields `list_id`, `count` and the byte-order-converted payload words `tmp`
are arguments (a read timeout or error drops the connection without
touching the store, so it is not modelled here). On the push that fills the
list, mark it READY, emit a status update, and auto-start the player if it
is not playing. -/
def do_preload_push (allocOk : Bool) (q : QState) (list_id count : Nat)
    (tmp : List Nat) : Bool × QState × List Nat :=
  if 1 < list_id ∨ count = 0 ∨ MAX_WORDS_PER_FRAME < count then (false, q, [])
  else
    match push_frame allocOk (getList q.srv list_id) tmp count with
    | (ok, L1) =>
      let q1 : QState := { q with srv := setList q.srv list_id L1 }
      if ok ∧ L1.loaded_frames = L1.total_frames then
        let L2 := { L1 with ready := true }
        let q2 : QState :=
          setStatus { q1 with srv := setList q1.srv list_id L2 } list_id .ready
        if ¬ q2.srv.playing then
          (true, { q2 with srv := startPlaying q2.srv list_id }, [list_id])
        else (true, q2, [list_id])
      else (ok, q1, [])

/-- C source: `do_preload_end` lines 595-628: reject `list_id > 1` and empty lists;
otherwise mark the list ready, set its status to READY, emit one update,
and auto-start the player if it is not playing. -/
def do_preload_end (q : QState) (list_id : Nat) : Bool × QState × List Nat :=
  if 1 < list_id then (false, q, [])
  else
    let L := getList q.srv list_id
    if L.loaded_frames = 0 then (false, q, [])
    else
      let L1 := { L with ready := true }
      let q1 : QState := setStatus { q with srv := setList q.srv list_id L1 } list_id .ready
      if ¬ q1.srv.playing then
        (true, { q1 with srv := startPlaying q1.srv list_id }, [list_id])
      else (true, q1, [list_id])

/-! ## Claim C6: PUSH appends exactly one frame, with validation -/
/-- The initial server state: `init_lists` (lines 261-266) zeroes `G` and
sets `cur_list = 0`, `next_list = 1`; `g_list_status` is initialised to
IDLE/IDLE in `awg_server_raw_notify.c`. -/
def initState : QState :=
  { srv := { list0 := emptyList, list1 := emptyList, playing := false, cur_list := 0, cur_frame := 0, next_list := 1 },
    status0 := .idle,
    status1 := .idle }

/-! ## Periodic player (`player_thread`, lines 269-342) -/
/-- Lines 327-338 of the player loop: dispatch the frame at `cur_frame`
when `playing` and `loaded_frames > cur_frame`, advancing `cur_frame`;
the slice `&words[off] .. + cnt` is the tick's MMIO output
(`awg_send_words32`). `sent` carries the `send_status_update` ids already
emitted earlier in the same tick. -/
def player_dispatch (q : QState) (sent : List Nat) :
    QState × List Nat × Option (List Nat) :=
  let cur := getList q.srv q.srv.cur_list
  if q.srv.playing ∧ q.srv.cur_frame < cur.loaded_frames then
    let off := cur.offsets.getD q.srv.cur_frame 0
    let cnt := cur.counts.getD q.srv.cur_frame 0
    ({ q with srv := { q.srv with cur_frame := q.srv.cur_frame + 1 } }, sent,
      some ((cur.words.drop off).take cnt))
  else (q, sent, none)

/-- One iteration of the `player_thread` loop body (lines 282-338) after
the absolute sleep, with `g_stop_queue = 0`. The second component lists
the `send_status_update` calls of the tick, the third is its
`awg_send_words32` slice, if any. End-of-list test (line 290):
`!ready || cur_frame >= total_frames`; next-list test (line 294):
`next.ready && next.total_frames > 0`. On a switch the old current list
is cleared and marked IDLE, and dispatch continues in the same tick; with
no ready next list the player stops and clears the finished list. -/
def player_tick (q : QState) : QState × List Nat × Option (List Nat) :=
  if ¬ q.srv.playing then (q, [], none)
  else
    let cur := getList q.srv q.srv.cur_list
    if ¬ cur.ready ∨ cur.total_frames ≤ q.srv.cur_frame then
      let fin_idx := q.srv.cur_list
      let nxt := getList q.srv q.srv.next_list
      if nxt.ready ∧ 0 < nxt.total_frames then
        let srv1 := { q.srv with cur_list := q.srv.next_list, next_list := fin_idx, cur_frame := 0 }
        let srv2 := setList srv1 fin_idx emptyList
        player_dispatch (setStatus { q with srv := srv2 } fin_idx .idle) [fin_idx]
      else
        let srv1 := setList { q.srv with playing := false } fin_idx emptyList
        (setStatus { q with srv := srv1 } fin_idx .idle, [fin_idx], none)
    else
      player_dispatch q []

/-! ## Claim C2: the end-of-list test (code bug) -/
/-- A reachable stall state: list 0 was begun with `total_frames = 2`, one
3-word frame was pushed, and END promoted it to READY
(`ready = true`, `loaded_frames = 1 < 2 = total_frames`); the player has
dispatched frame 0, so `cur_frame = 1`. -/
def c2StallState : QState :=
  { srv := { list0 := { offsets := [0, 0], counts := [3, 0], allocated := true, total_frames := 2, loaded_frames := 1, ready := true, words := [1, 2, 3], words_cap := 4096, words_used := 3 }, list1 := emptyList, playing := true, cur_list := 0, cur_frame := 1, next_list := 1 },
    status0 := .ready,
    status1 := .idle }

/-- Witness for C5 at a concrete switch state: list 0 exhausted
(`cur_frame = 1 = total_frames`), list 1 READY with one loaded frame. -/
def c5SwitchState : QState :=
  { srv := { list0 := { offsets := [0], counts := [2], allocated := true, total_frames := 1, loaded_frames := 1, ready := true, words := [7, 8], words_cap := 4096, words_used := 2 }, list1 := { offsets := [0], counts := [1], allocated := true, total_frames := 1, loaded_frames := 1, ready := true, words := [9], words_cap := 4096, words_used := 1 }, playing := true, cur_list := 0, cur_frame := 1, next_list := 1 },
    status0 := .ready,
    status1 := .ready }

/-- A state in which END can fire the auto-start rule: list 0 is
LOADING with one frame pushed out of two, and the player is idle. -/
def c8EndState : QState :=
  { srv := { list0 := { offsets := [0, 0], counts := [1, 0], allocated := true, total_frames := 2, loaded_frames := 1, ready := false, words := [9], words_cap := 4096, words_used := 1 }, list1 := emptyList, playing := false, cur_list := 0, cur_frame := 0, next_list := 1 },
    status0 := .loading,
    status1 := .idle }

/-! ## Claim C9: the list invariant -/
/-- Claim C9's per-list invariant (spec §8): `loaded_frames ≤ total_frames`,
`words_used ≤ words_cap`, and every recorded frame slice lies inside the
used part of the word buffer with a count in `1..64`. -/
def listInv (L : AwgList) : Prop :=
  L.loaded_frames ≤ L.total_frames ∧ L.words_used ≤ L.words_cap ∧
  ∀ i, i < L.loaded_frames →
    L.offsets.getD i 0 + L.counts.getD i 0 ≤ L.words_used ∧
    1 ≤ L.counts.getD i 0 ∧ L.counts.getD i 0 ≤ 64

/-- Structural well-formedness of the embedding: the calloc'd metadata
arrays hold `total_frames` entries and the modelled `words` list is
exactly the used prefix of the C buffer. Every list the code builds
satisfies it; it is what makes `listInv` inductive. -/
def listWF (L : AwgList) : Prop :=
  L.offsets.length = L.total_frames ∧ L.counts.length = L.total_frames ∧
  L.words.length = L.words_used

/-! ## RESET sequencer (`do_reset`, lines 390-494) -/
/-- Phase 0 of `do_reset` (lines 393-403): stop playback, reset
`cur_frame`, and fully clear both lists (the `g_loading_in_progress`
flags are not modelled). -/
def do_reset_cleared_srv (s : AwgSrv) : AwgSrv :=
  setList (setList { s with playing := false, cur_frame := 0 } 0 emptyList) 1 emptyList

/-- The `while (g_list_status[i] != LIST_IDLE) usleep(10000);` wait loops
of `do_reset`, interleaved with the concurrently running player thread:
each poll that still sees a non-IDLE status lets the player run one tick
(the single-thread rendering of the concurrency); `fuel` bounds the
polls. The collected tick outputs are the MMIO frames sent meanwhile. -/
def wait_idle (i : Nat) : Nat → QState → QState × List (List Nat)
  | 0, q => (q, [])
  | fuel + 1, q =>
    if getStatus q i = .idle then (q, [])
    else
      let t := player_tick q
      let rest := wait_idle i fuel t.1
      (rest.1, t.2.2.toList ++ rest.2)

/-- Phase 2 and the final cleanup of `do_reset` (lines 441-494): reload
list 1 with `SHUTDOWN_FLUSH_FRAMES` zero-gain frames, play it from
`cur_list = 1` until IDLE, then stop, clear both lists, set both statuses
IDLE and emit the final notifications. On a load failure both statuses
are set IDLE and the handler returns ("Aborting"). `out1` carries the
MMIO frames already sent in phase 1. -/
def do_reset_phase2 (allocOk : Bool) (q2 : QState) (out1 : List (List Nat)) :
    QState × List (List Nat) :=
  match load_zero_gain_list allocOk (getList q2.srv 1) SHUTDOWN_FLUSH_FRAMES with
  | (false, L1) =>
    (setStatus (setStatus { q2 with srv := setList { q2.srv with playing := false } 1 L1 } 0 .idle) 1 .idle, out1)
  | (true, L1) =>
    let q3 : QState := setStatus (setStatus { q2 with srv := { setList { q2.srv with playing := false } 1 L1 with playing := true, cur_list := 1, next_list := 0, cur_frame := 0 } } 0 .idle) 1 .ready
    let p2 := wait_idle 1 (SHUTDOWN_FLUSH_FRAMES + 2) q3
    (setStatus (setStatus { p2.1 with srv := setList (setList { p2.1.srv with playing := false } 0 emptyList) 1 emptyList } 0 .idle) 1 .idle, out1 ++ p2.2)

/-- C source: `do_reset` (lines 390-494), sequential interleaving model: phase 0
clears everything; phase 1 (lines 408-439) loads `SHUTDOWN_FLUSH_FRAMES`
zero-gain frames into list 0, starts playback from it and waits — the
player draining it tick by tick — until list 0 is IDLE; then phase 2 does
the same for list 1 and only afterwards emits the final IDLE
notifications. On a phase-1 load failure both statuses are set IDLE and
the handler returns. The second component is the sequence of frames
handed to `awg_send_words32` during the reset. -/
def do_reset (allocOk : Bool) (q : QState) : QState × List (List Nat) :=
  let srv0 := do_reset_cleared_srv q.srv
  match load_zero_gain_list allocOk (getList srv0 0) SHUTDOWN_FLUSH_FRAMES with
  | (false, L0) =>
    (setStatus (setStatus { q with srv := setList srv0 0 L0 } 0 .idle) 1 .idle, [])
  | (true, L0) =>
    let q1 : QState := setStatus (setStatus { q with srv := { setList srv0 0 L0 with playing := true, cur_list := 0, next_list := 1, cur_frame := 0 } } 0 .ready) 1 .idle
    let p1 := wait_idle 0 (SHUTDOWN_FLUSH_FRAMES + 2) q1
    do_reset_phase2 allocOk p1.1 p1.2

/-! ## Notification channel (`awg_server_raw_notify.c`) -/
/-- Notifier state: whether a subscriber socket is connected
(`g_notify_fd >= 0`) and the cached last-sent value
(`g_last_sent_status`; `-1`, i.e. `none`, right after an accept). -/
structure NotifyState where
  connected : Bool
  lastSent : Option ListStatus
deriving DecidableEq

/-- The system-wide status computed by `send_system_status` (lines
44-46): `LIST_IDLE` when at least one list is IDLE, `LIST_FULL`
otherwise. -/
def systemStatusOf (status0 status1 : ListStatus) : ListStatus :=
  if status0 = .idle ∨ status1 = .idle then .idle else .full

/-- The line sent for a system status (line 50). -/
def statusLine (st : ListStatus) : String :=
  if st = .idle then "IDLE\n" else "FULL\n"

/-- C source: `send_system_status` (lines 41-62): with a subscriber connected,
compute the system status from `g_list_status` and, only when it differs
from the last-sent value, send one line; on send success the cache is
updated, on failure (`sendOk = false`) the subscriber socket is closed
and the cache kept. Returns the new notifier state and the delivered
line, if any. -/
def send_system_status (status0 status1 : ListStatus) (ns : NotifyState)
    (sendOk : Bool) : NotifyState × Option String :=
  if ns.connected then
    let cur := systemStatusOf status0 status1
    if some cur ≠ ns.lastSent then
      if sendOk then ({ ns with lastSent := some cur }, some (statusLine cur))
      else ({ ns with connected := false }, none)
    else (ns, none)
  else (ns, none)

/-- The notification lines the claim (spec §4.5, §6) prescribes:
`LIST<id>:<STATE>\n` for `id ∈ {0,1}` and
`STATE ∈ {IDLE, LOADING, READY}`. Stated from the spec, for comparison
with what the source emits. -/
def specListStatusLines : List String :=
  ["LIST0:IDLE\n", "LIST0:LOADING\n", "LIST0:READY\n",
   "LIST1:IDLE\n", "LIST1:LOADING\n", "LIST1:READY\n"]

/-! ## Additive form of the packed words -/
theorem lor_eq_add_of_lt {a b : Nat} (i : Nat) (hb : b < 2 ^ i) :
    (a * 2 ^ i) ||| b = a * 2 ^ i + b := by
  rw [Nat.mul_comm a (2 ^ i), ← Nat.mul_add_lt_is_or hb a]

theorem PACK_WORD_eq_add (cmd ch tone d : Nat) :
    PACK_WORD cmd ch tone d =
      (cmd % 16) * 2 ^ 28 + (ch % 2) * 2 ^ 27 + (tone % 8) * 2 ^ 24 + d % 2 ^ 20 := by
  have hd : d % 2 ^ 20 < 2 ^ 20 := Nat.mod_lt _ (by norm_num)
  have htone : tone % 8 < 8 := Nat.mod_lt _ (by norm_num)
  have hch : ch % 2 < 2 := Nat.mod_lt _ (by norm_num)
  have e20 : (2:Nat) ^ 20 = 1048576 := by norm_num
  have e24 : (2:Nat) ^ 24 = 16777216 := by norm_num
  have e27 : (2:Nat) ^ 27 = 134217728 := by norm_num
  have e28 : (2:Nat) ^ 28 = 268435456 := by norm_num
  have h1 : (tone % 8) * 2 ^ 24 ||| d % 2 ^ 20 = (tone % 8) * 2 ^ 24 + d % 2 ^ 20 :=
    lor_eq_add_of_lt 24 (lt_of_lt_of_le hd (by norm_num))
  have hb1 : (tone % 8) * 2 ^ 24 + d % 2 ^ 20 < 2 ^ 27 := by rw [e24, e27]; rw [e20] at hd; omega
  have h2 : (ch % 2) * 2 ^ 27 ||| ((tone % 8) * 2 ^ 24 + d % 2 ^ 20)
      = (ch % 2) * 2 ^ 27 + ((tone % 8) * 2 ^ 24 + d % 2 ^ 20) :=
    lor_eq_add_of_lt 27 hb1
  have hb2 : (ch % 2) * 2 ^ 27 + ((tone % 8) * 2 ^ 24 + d % 2 ^ 20) < 2 ^ 28 := by
    rw [e27, e28]; rw [e27] at hb1; omega
  have h3 : (cmd % 16) * 2 ^ 28 ||| ((ch % 2) * 2 ^ 27 + ((tone % 8) * 2 ^ 24 + d % 2 ^ 20))
      = (cmd % 16) * 2 ^ 28 + ((ch % 2) * 2 ^ 27 + ((tone % 8) * 2 ^ 24 + d % 2 ^ 20)) :=
    lor_eq_add_of_lt 28 hb2
  calc PACK_WORD cmd ch tone d
      = (cmd % 16) * 2 ^ 28 |||
          ((ch % 2) * 2 ^ 27 ||| ((tone % 8) * 2 ^ 24 ||| d % 2 ^ 20)) := by
        unfold PACK_WORD; rw [Nat.or_assoc, Nat.or_assoc]
    _ = (cmd % 16) * 2 ^ 28 + ((ch % 2) * 2 ^ 27 + ((tone % 8) * 2 ^ 24 + d % 2 ^ 20)) := by
        rw [h1, h2, h3]
    _ = (cmd % 16) * 2 ^ 28 + (ch % 2) * 2 ^ 27 + (tone % 8) * 2 ^ 24 + d % 2 ^ 20 := by
        omega

theorem pack_sel_eq_add (ch tone : Nat) :
    pack_sel ch tone = (ch % 2) * 2 ^ 27 + (tone % 8) * 2 ^ 24 := by
  have htone : tone % 8 < 8 := Nat.mod_lt _ (by norm_num)
  have hb : (tone % 8) * 2 ^ 24 < 2 ^ 27 := by
    have e24 : (2:Nat) ^ 24 = 16777216 := by norm_num
    have e27 : (2:Nat) ^ 27 = 134217728 := by norm_num
    rw [e24, e27]; omega
  unfold pack_sel
  exact lor_eq_add_of_lt 27 hb

theorem make_index_word_eq (ch tone idx20 : Nat) :
    make_index_word ch tone idx20 = MAKE_INDEX_WORD ch tone idx20 := by
  have hch : ch % 2 < 2 := Nat.mod_lt _ (by norm_num)
  have htone : tone % 8 < 8 := Nat.mod_lt _ (by norm_num)
  have hidx : idx20 % 2 ^ 20 < 2 ^ 20 := Nat.mod_lt _ (by norm_num)
  have e20 : (2:Nat) ^ 20 = 1048576 := by norm_num
  have e24 : (2:Nat) ^ 24 = 16777216 := by norm_num
  have e27 : (2:Nat) ^ 27 = 134217728 := by norm_num
  have e28 : (2:Nat) ^ 28 = 268435456 := by norm_num
  have hmod : idx20 % 2 ^ 20 < 2 ^ 24 := by rw [e24]; rw [e20] at hidx; omega
  have hb : (tone % 8) * 2 ^ 24 + idx20 % 2 ^ 20 < 2 ^ 27 := by
    rw [e24, e27]; rw [e20] at hidx; omega
  have h1 : pack_sel ch tone ||| idx20 % 2 ^ 20 = pack_sel ch tone + idx20 % 2 ^ 20 := by
    calc pack_sel ch tone ||| idx20 % 2 ^ 20
        = (ch % 2) * 2 ^ 27 ||| ((tone % 8) * 2 ^ 24 ||| idx20 % 2 ^ 20) := by
          unfold pack_sel; rw [Nat.or_assoc]
      _ = (ch % 2) * 2 ^ 27 ||| ((tone % 8) * 2 ^ 24 + idx20 % 2 ^ 20) := by
          rw [lor_eq_add_of_lt 24 hmod]
      _ = (ch % 2) * 2 ^ 27 + ((tone % 8) * 2 ^ 24 + idx20 % 2 ^ 20) :=
          lor_eq_add_of_lt 27 hb
      _ = pack_sel ch tone + idx20 % 2 ^ 20 := by rw [pack_sel_eq_add]; omega
  have hsel : pack_sel ch tone + idx20 % 2 ^ 20 < 2 ^ 28 := by
    rw [pack_sel_eq_add, e24, e27, e28]; rw [e20] at hidx; omega
  unfold make_index_word
  rw [Nat.or_assoc, h1, lor_eq_add_of_lt 28 hsel, MAKE_INDEX_WORD, PACK_WORD_eq_add,
    pack_sel_eq_add]
  omega

theorem make_gain_word_eq (ch tone g20 : Nat) :
    make_gain_word ch tone g20 = MAKE_GAIN_WORD ch tone g20 := by
  have hch : ch % 2 < 2 := Nat.mod_lt _ (by norm_num)
  have htone : tone % 8 < 8 := Nat.mod_lt _ (by norm_num)
  have hg : g20 % 2 ^ 20 < 2 ^ 20 := Nat.mod_lt _ (by norm_num)
  have e20 : (2:Nat) ^ 20 = 1048576 := by norm_num
  have e24 : (2:Nat) ^ 24 = 16777216 := by norm_num
  have e27 : (2:Nat) ^ 27 = 134217728 := by norm_num
  have e28 : (2:Nat) ^ 28 = 268435456 := by norm_num
  have hmod : g20 % 2 ^ 20 < 2 ^ 24 := by rw [e24]; rw [e20] at hg; omega
  have hb : (tone % 8) * 2 ^ 24 + g20 % 2 ^ 20 < 2 ^ 27 := by
    rw [e24, e27]; rw [e20] at hg; omega
  have h1 : pack_sel ch tone ||| g20 % 2 ^ 20 = pack_sel ch tone + g20 % 2 ^ 20 := by
    calc pack_sel ch tone ||| g20 % 2 ^ 20
        = (ch % 2) * 2 ^ 27 ||| ((tone % 8) * 2 ^ 24 ||| g20 % 2 ^ 20) := by
          unfold pack_sel; rw [Nat.or_assoc]
      _ = (ch % 2) * 2 ^ 27 ||| ((tone % 8) * 2 ^ 24 + g20 % 2 ^ 20) := by
          rw [lor_eq_add_of_lt 24 hmod]
      _ = (ch % 2) * 2 ^ 27 + ((tone % 8) * 2 ^ 24 + g20 % 2 ^ 20) :=
          lor_eq_add_of_lt 27 hb
      _ = pack_sel ch tone + g20 % 2 ^ 20 := by rw [pack_sel_eq_add]; omega
  have hsel : pack_sel ch tone + g20 % 2 ^ 20 < 2 ^ 28 := by
    rw [pack_sel_eq_add, e24, e27, e28]; rw [e20] at hg; omega
  unfold make_gain_word
  rw [Nat.or_assoc, h1, lor_eq_add_of_lt 28 hsel, MAKE_GAIN_WORD, PACK_WORD_eq_add,
    pack_sel_eq_add]
  omega

/-! ## Claim C4: word codec round trip -/
/-- C4: for every `ch < 2`, `tone < 8` and 20-bit payload, the word built by
`pack_index` (`MAKE_INDEX_WORD`/`make_index_word`) has cmd field (bits 31:28)
`0x1`, channel bit 27 `ch`, tone bits 26:24 `tone` and low 20 bits the payload;
likewise `pack_gain` with cmd `0x2`; unpacking recovers the inputs; and
`pack_commit()` is `0xF0000000`. -/
theorem c4_word_codec_roundtrip (ch tone p : Nat)
    (hch : ch < 2) (htone : tone < 8) (hp : p < 2 ^ 20) :
    MAKE_INDEX_WORD ch tone p / 2 ^ 28 % 16 = 1 ∧
    MAKE_INDEX_WORD ch tone p / 2 ^ 27 % 2 = ch ∧
    MAKE_INDEX_WORD ch tone p / 2 ^ 24 % 8 = tone ∧
    MAKE_INDEX_WORD ch tone p % 2 ^ 20 = p ∧
    MAKE_GAIN_WORD ch tone p / 2 ^ 28 % 16 = 2 ∧
    MAKE_GAIN_WORD ch tone p / 2 ^ 27 % 2 = ch ∧
    MAKE_GAIN_WORD ch tone p / 2 ^ 24 % 8 = tone ∧
    MAKE_GAIN_WORD ch tone p % 2 ^ 20 = p ∧
    make_index_word ch tone p = MAKE_INDEX_WORD ch tone p ∧
    make_gain_word ch tone p = MAKE_GAIN_WORD ch tone p ∧
    MAKE_COMMIT_WORD = 0xF0000000 := by
  have hch' : ch % 2 = ch := Nat.mod_eq_of_lt hch
  have htone' : tone % 8 = tone := Nat.mod_eq_of_lt htone
  have hp' : p % 2 ^ 20 = p := Nat.mod_eq_of_lt hp
  have hidx := PACK_WORD_eq_add 1 ch tone p
  have hgain := PACK_WORD_eq_add 2 ch tone p
  have hcommit := PACK_WORD_eq_add 15 0 0 0
  rw [hch', htone', hp'] at hidx hgain
  have e20 : (2:Nat) ^ 20 = 1048576 := by norm_num
  have e24 : (2:Nat) ^ 24 = 16777216 := by norm_num
  have e27 : (2:Nat) ^ 27 = 134217728 := by norm_num
  have e28 : (2:Nat) ^ 28 = 268435456 := by norm_num
  rw [e20] at hp
  refine ⟨?_, ?_, ?_, ?_, ?_, ?_, ?_, ?_,
    make_index_word_eq ch tone p, make_gain_word_eq ch tone p, ?_⟩ <;>
    simp only [MAKE_INDEX_WORD, MAKE_GAIN_WORD, MAKE_COMMIT_WORD, hidx, hgain, hcommit,
      e20, e24, e27, e28] <;> omega

/-- Witness for C4 at `ch = 1`, `tone = 5`, `p = 777`. -/
theorem c4_word_codec_roundtrip_witness :
    1 < 2 ∧ 5 < 8 ∧ 777 < 2 ^ 20 ∧ MAKE_INDEX_WORD 1 5 777 % 2 ^ 20 = 777 :=
  ⟨by decide, by decide, by decide,
    (c4_word_codec_roundtrip 1 5 777 (by decide) (by decide) (by decide)).2.2.2.1⟩

/-! ## Claim C1: the all-silence frame -/
/-- C1 counterexample: the 33-word `ZERO_GAIN_FRAME` used by
`load_zero_gain_list` is not the 17-word sequence
`pack_gain(ch,tone,0)` × 16 followed by `pack_commit()` that the claim
describes. -/
theorem c1_zero_gain_frame_ne_spec :
    ZERO_GAIN_FRAME ≠ specSilenceFrame ∧
    ZERO_GAIN_FRAME.length = 33 ∧ specSilenceFrame.length = 17 := by
  refine ⟨by decide, by decide, by decide⟩

/-- C1 amended: `awg_zero_output` does build the fixed 17-word sequence
`pack_gain(ch,tone,0)` for `ch ∈ {0,1}`, `tone ∈ 0..7` (channel-major,
tone-ascending) followed by one `pack_commit()`; but the frame used by
`load_zero_gain_list`/`ZERO_GAIN_FRAME` for priming, RESET and the
flush sequences is a different, 33-word sequence: for each `(ch, tone)`
in the same order a `pack_index(ch,tone,0)` followed by
`pack_gain(ch,tone,0)`, then one `pack_commit()`. -/
theorem c1_silence_frames_amended :
    awg_zero_output_words = specSilenceFrame ∧
    ZERO_GAIN_FRAME =
      ((List.range 2).flatMap fun ch =>
        (List.range 8).flatMap fun tone =>
          [MAKE_INDEX_WORD ch tone 0, MAKE_GAIN_WORD ch tone 0]) ++ [MAKE_COMMIT_WORD] ∧
    ZERO_GAIN_FRAME_COUNT = 33 := by
  refine ⟨?_, by decide, by decide⟩
  decide

/-! ## Store lemmas -/
theorem getList_setList_same (s : AwgSrv) (i : Nat) (L : AwgList) :
    getList (setList s i L) i = L := by
  unfold getList setList
  by_cases h : i = 0 <;> simp [h]

theorem getList_setList_other (s : AwgSrv) {i j : Nat} (L : AwgList)
    (hi : i < 2) (hj : j < 2) (h : i ≠ j) :
    getList (setList s i L) j = getList s j := by
  unfold getList setList
  interval_cases i <;> interval_cases j <;> simp_all

theorem setList_getList_self (s : AwgSrv) (i : Nat) :
    setList s i (getList s i) = s := by
  unfold getList setList
  by_cases h : i = 0 <;> simp [h]

theorem getList_startPlaying (s : AwgSrv) (list_id j : Nat) :
    getList (startPlaying s list_id) j = getList s j := by
  unfold getList startPlaying
  by_cases h : j = 0 <;> simp [h]

theorem getStatus_setStatus_same (q : QState) (i : Nat) (st : ListStatus) :
    getStatus (setStatus q i st) i = st := by
  unfold getStatus setStatus
  by_cases h : i = 0 <;> simp [h]

theorem growCap_ge (cap want : Nat) : want ≤ growCap cap want := by
  by_cases h : cap < want
  · rw [growCap]
    simp only [h, if_true]
    exact growCap_ge (cap + GROW_WORDS_STEP) want
  · rw [growCap]
    simp only [h, if_false]
    omega
termination_by want - cap
decreasing_by
  have hg : 0 < GROW_WORDS_STEP := by decide
  omega

theorem ensure_words_cap_false {allocOk : Bool} {L : AwgList} {n : Nat}
    (h : (ensure_words_cap allocOk L n).1 = false) :
    (ensure_words_cap allocOk L n).2 = L := by
  by_cases hle : L.words_used + n ≤ L.words_cap
  · simp [ensure_words_cap, hle] at h
  · cases hao : allocOk
    · simp [ensure_words_cap, hle, hao]
    · rw [hao] at h
      simp [ensure_words_cap, hle] at h

theorem ensure_words_cap_true {allocOk : Bool} {L : AwgList} {n : Nat}
    (h : (ensure_words_cap allocOk L n).1 = true) :
    ∃ cap, L.words_used + n ≤ cap ∧
      (ensure_words_cap allocOk L n).2 = { L with words_cap := cap } := by
  by_cases hle : L.words_used + n ≤ L.words_cap
  · exact ⟨L.words_cap, hle, by simp [ensure_words_cap, hle]⟩
  · cases hao : allocOk
    · rw [hao] at h
      simp [ensure_words_cap, hle] at h
    · refine ⟨growCap (if L.words_cap = 0 then GROW_WORDS_STEP else L.words_cap)
        (L.words_used + n), growCap_ge _ _, ?_⟩
      simp [ensure_words_cap, hle, hao]

theorem push_frame_false {allocOk : Bool} {L : AwgList} {w : List Nat} {count : Nat}
    (h : (push_frame allocOk L w count).1 = false) :
    (push_frame allocOk L w count).2 = L := by
  rcases hr : push_frame allocOk L w count with ⟨ok, L'⟩
  rw [hr] at h
  simp only at h
  subst h
  show L' = L
  unfold push_frame at hr
  split at hr
  · injection hr with _ h2
    exact h2.symm
  split at hr
  · injection hr with _ h2
    exact h2.symm
  split at hr
  · injection hr with _ h2
    exact h2.symm
  split at hr
  · next L1 heq =>
    injection hr with _ h2
    have hL1 := @ensure_words_cap_false allocOk L count (by rw [heq])
    rw [heq] at hL1
    simp only at hL1
    rw [← h2, hL1]
  · next L1 heq =>
    simp at hr

theorem push_frame_true {allocOk : Bool} {L : AwgList} {w : List Nat} {count : Nat}
    (h : (push_frame allocOk L w count).1 = true) :
    L.allocated = true ∧ L.loaded_frames < L.total_frames ∧
    1 ≤ count ∧ count ≤ MAX_WORDS_PER_FRAME ∧
    ∃ cap, L.words_used + count ≤ cap ∧
      (push_frame allocOk L w count).2 =
        { L with
          words_cap := cap,
          words := L.words ++ w.take count,
          words_used := L.words_used + count,
          offsets := L.offsets.set L.loaded_frames L.words_used,
          counts := L.counts.set L.loaded_frames count,
          loaded_frames := L.loaded_frames + 1 } := by
  rcases hr : push_frame allocOk L w count with ⟨ok, L'⟩
  rw [hr] at h
  simp only at h
  subst h
  unfold push_frame at hr
  split at hr
  · simp at hr
  next halloc =>
  split at hr
  · simp at hr
  next hfull =>
  split at hr
  · simp at hr
  next hcnt =>
  split at hr
  · next L1 heq =>
    simp at hr
  · next L1 heq =>
    obtain ⟨cap, hcap, h2⟩ := @ensure_words_cap_true allocOk L count (by rw [heq])
    rw [heq] at h2
    simp only at h2
    subst h2
    injection hr with _ h2
    subst h2
    push_neg at hcnt
    refine ⟨by simpa using halloc, by omega, by omega, by omega, cap, hcap, rfl⟩

/-! ## Claim C10: `push_frame` is atomic on failure -/
/-- C10: when `push_frame` fails — NULL/unallocated list, list already
full, count out of range, or `realloc` failure inside `ensure_words_cap` —
the list is returned exactly as it was: `loaded_frames`, `words_used`,
all recorded `offsets[i]`/`counts[i]` and all stored words are unchanged
(in the source even the capacity is unchanged, since a failed `realloc`
keeps the old block; the claim additionally tolerates a grown capacity). -/
theorem c10_push_frame_failure_atomic (allocOk : Bool) (L : AwgList)
    (w : List Nat) (count : Nat)
    (h : (push_frame allocOk L w count).1 = false) :
    (push_frame allocOk L w count).2.loaded_frames = L.loaded_frames ∧
    (push_frame allocOk L w count).2.words_used = L.words_used ∧
    (push_frame allocOk L w count).2.offsets = L.offsets ∧
    (push_frame allocOk L w count).2.counts = L.counts ∧
    (push_frame allocOk L w count).2.words = L.words := by
  rw [push_frame_false h]
  exact ⟨rfl, rfl, rfl, rfl, rfl⟩

/-- Witness for C10: pushing into a cleared (unallocated) list fails and
leaves it empty. -/
theorem c10_push_frame_failure_atomic_witness :
    (push_frame true emptyList [1, 2, 3] 3).1 = false ∧
    (push_frame true emptyList [1, 2, 3] 3).2.loaded_frames = emptyList.loaded_frames :=
  ⟨by decide, (c10_push_frame_failure_atomic true emptyList [1, 2, 3] 3 (by decide)).1⟩

theorem setList_playing (s : AwgSrv) (i : Nat) (L : AwgList) :
    (setList s i L).playing = s.playing := by
  unfold setList
  by_cases h : i = 0 <;> simp [h]

theorem setStatus_srv (q : QState) (i : Nat) (st : ListStatus) :
    (setStatus q i st).srv = q.srv := by
  unfold setStatus
  by_cases h : i = 0 <;> simp [h]

/-- C6: `do_preload_push` succeeds only when `list_id ∈ {0,1}`,
`1 ≤ count ≤ 64` and the target list still has room
(`loaded_frames < total_frames`), and then appends exactly one frame;
`count = 0` or `count ≥ 65` (and any other validation failure) yields
failure — the caller `serve_client` then drops the connection — with the
store unchanged; and a successful push that makes
`loaded_frames = total_frames` leaves the list marked ready (READY). -/
theorem c6_push_validation (allocOk : Bool) (q : QState) (list_id count : Nat)
    (tmp : List Nat) :
    ((do_preload_push allocOk q list_id count tmp).1 = true →
      list_id ≤ 1 ∧ 1 ≤ count ∧ count ≤ 64 ∧
      (getList q.srv list_id).loaded_frames < (getList q.srv list_id).total_frames ∧
      (getList (do_preload_push allocOk q list_id count tmp).2.1.srv list_id).loaded_frames
        = (getList q.srv list_id).loaded_frames + 1) ∧
    (count = 0 ∨ 65 ≤ count →
      do_preload_push allocOk q list_id count tmp = (false, q, [])) ∧
    ((do_preload_push allocOk q list_id count tmp).1 = false →
      (do_preload_push allocOk q list_id count tmp).2.1 = q) ∧
    ((do_preload_push allocOk q list_id count tmp).1 = true →
      (getList (do_preload_push allocOk q list_id count tmp).2.1.srv list_id).loaded_frames
        = (getList (do_preload_push allocOk q list_id count tmp).2.1.srv list_id).total_frames →
      (getList (do_preload_push allocOk q list_id count tmp).2.1.srv list_id).ready = true) := by
  by_cases hhdr : 1 < list_id ∨ count = 0 ∨ MAX_WORDS_PER_FRAME < count
  · have hres : do_preload_push allocOk q list_id count tmp = (false, q, []) := by
      simp [do_preload_push, hhdr]
    rw [hres]
    exact ⟨by simp, fun _ => rfl, fun _ => rfl, by simp⟩
  · have hmax : MAX_WORDS_PER_FRAME = 64 := rfl
    have hhdr2 := hhdr
    rw [hmax] at hhdr2
    push_neg at hhdr2
    obtain ⟨hid, hc0, hc64⟩ := hhdr2
    rcases hp : push_frame allocOk (getList q.srv list_id) tmp count with ⟨ok, L1⟩
    by_cases hfull : ok = true ∧ L1.loaded_frames = L1.total_frames
    · obtain ⟨hok, hl⟩ := hfull
      subst hok
      obtain ⟨halloc, hroom, hc1, hcm, cap, hcap, hL1⟩ :=
        @push_frame_true allocOk (getList q.srv list_id) tmp count (by rw [hp])
      rw [hp] at hL1
      simp only at hL1
      have hload : L1.loaded_frames = (getList q.srv list_id).loaded_frames + 1 := by
        rw [hL1]
      by_cases hplay : q.srv.playing = true
      · have hres : do_preload_push allocOk q list_id count tmp = (true, setStatus { q with srv := setList (setList q.srv list_id L1) list_id { L1 with ready := true } } list_id ListStatus.ready, [list_id]) := by
          simp [do_preload_push, hhdr, hp, hl, hplay, setStatus_srv, setList_playing]
        rw [hres]
        refine ⟨fun _ => ⟨hid, by omega, hc64, hroom, ?_⟩,
          fun hc => absurd hc (by omega), by simp, fun _ _ => ?_⟩
        · simp only [setStatus_srv, getList_setList_same]
          omega
        · simp [setStatus_srv, getList_setList_same]
      · have hres : do_preload_push allocOk q list_id count tmp = (true, { setStatus { q with srv := setList (setList q.srv list_id L1) list_id { L1 with ready := true } } list_id ListStatus.ready with srv := startPlaying (setList (setList q.srv list_id L1) list_id { L1 with ready := true }) list_id }, [list_id]) := by
          simp [do_preload_push, hhdr, hp, hl, hplay, setStatus_srv, setList_playing]
        rw [hres]
        refine ⟨fun _ => ⟨hid, by omega, hc64, hroom, ?_⟩,
          fun hc => absurd hc (by omega), by simp, fun _ _ => ?_⟩
        · simp only [getList_startPlaying, getList_setList_same]
          omega
        · simp [getList_startPlaying, getList_setList_same]
    · have hres : do_preload_push allocOk q list_id count tmp =
          (ok, { q with srv := setList q.srv list_id L1 }, []) := by
        simp [do_preload_push, hhdr, hp, hfull]
      rw [hres]
      refine ⟨?_, fun hc => absurd hc (by omega), ?_, ?_⟩
      · intro hok
        simp only at hok
        subst hok
        obtain ⟨halloc, hroom, hc1, hcm, cap, hcap, hL1⟩ :=
          @push_frame_true allocOk (getList q.srv list_id) tmp count (by rw [hp])
        rw [hp] at hL1
        simp only at hL1
        refine ⟨hid, by omega, hc64, hroom, ?_⟩
        simp only [getList_setList_same]
        rw [hL1]
      · intro hok
        simp only at hok
        subst hok
        have hL1 := @push_frame_false allocOk (getList q.srv list_id) tmp count (by rw [hp])
        rw [hp] at hL1
        simp only at hL1
        subst hL1
        simp [setList_getList_self]
      · intro hok hfl
        simp only at hok
        simp only [getList_setList_same] at hfl
        exact absurd ⟨hok, hfl⟩ hfull

/-- Witness for C6: a zero-count PUSH on the initial state is rejected with
the store untouched. -/
theorem c6_push_validation_witness :
    do_preload_push true initState 0 0 [] = (false, initState, []) :=
  (c6_push_validation true initState 0 0 []).2.1 (Or.inl rfl)

theorem setList_cur_list (s : AwgSrv) (i : Nat) (L : AwgList) :
    (setList s i L).cur_list = s.cur_list := by
  unfold setList
  by_cases h : i = 0 <;> simp [h]

theorem setList_next_list (s : AwgSrv) (i : Nat) (L : AwgList) :
    (setList s i L).next_list = s.next_list := by
  unfold setList
  by_cases h : i = 0 <;> simp [h]

theorem setList_cur_frame (s : AwgSrv) (i : Nat) (L : AwgList) :
    (setList s i L).cur_frame = s.cur_frame := by
  unfold setList
  by_cases h : i = 0 <;> simp [h]

theorem getList_update3 (s : AwgSrv) (a b c j : Nat) :
    getList { s with cur_list := a, next_list := b, cur_frame := c } j = getList s j := by
  unfold getList
  by_cases h : j = 0 <;> simp [h]

/-- C2 (code bug): at `c2StallState` the claim requires the end-of-list
branch to fire (`cur_frame = 1 ≥ 1 = loaded_frames`), but the player
compares `cur_frame` against `total_frames` (line 290) while dispatching
only when `cur_frame < loaded_frames` (line 329), so the tick is a no-op:
no switch, no stop, no dispatch, no `cur_frame` increment — and the state
repeats, stalling playback forever on an END-promoted partial list. -/
theorem c2_player_tick_stalls :
    player_tick c2StallState = (c2StallState, [], none) ∧
    (getList c2StallState.srv c2StallState.srv.cur_list).loaded_frames ≤
      c2StallState.srv.cur_frame ∧
    (getList c2StallState.srv c2StallState.srv.cur_list).ready = true ∧
    c2StallState.srv.playing = true := by
  refine ⟨by decide, by decide, by decide, by decide⟩

/-! ## Claim C5: seam-free list switch -/
/-- C5: whenever a tick detects end-of-current (the player's branch
condition of line 290) while the next list is ready with
`loaded_frames > 0` (and the list invariant `loaded ≤ total` holds, with
`next_list = 1 - cur_list` as maintained by every writer), the same tick
swaps `cur` and `next`, resets `cur_frame` to 0 and dispatches frame 0 of
the new current list (leaving `cur_frame = 1`): no tick between the two
lists goes without a dispatched frame. -/
theorem c5_switch_same_tick (q : QState)
    (hplay : q.srv.playing = true)
    (hcur : q.srv.cur_list < 2)
    (hnext : q.srv.next_list = 1 - q.srv.cur_list)
    (hend : ¬ (getList q.srv q.srv.cur_list).ready = true ∨
      (getList q.srv q.srv.cur_list).total_frames ≤ q.srv.cur_frame)
    (hready : (getList q.srv q.srv.next_list).ready = true)
    (hloaded : 0 < (getList q.srv q.srv.next_list).loaded_frames)
    (hle : (getList q.srv q.srv.next_list).loaded_frames ≤
      (getList q.srv q.srv.next_list).total_frames) :
    (player_tick q).1.srv.cur_list = q.srv.next_list ∧
    (player_tick q).1.srv.next_list = q.srv.cur_list ∧
    (player_tick q).1.srv.cur_frame = 1 ∧
    (player_tick q).1.srv.playing = true ∧
    (player_tick q).2.2 = some (((getList q.srv q.srv.next_list).words.drop
        ((getList q.srv q.srv.next_list).offsets.getD 0 0)).take
        ((getList q.srv q.srv.next_list).counts.getD 0 0)) ∧
    (player_tick q).2.1 = [q.srv.cur_list] := by
  have hne : q.srv.cur_list ≠ q.srv.next_list := by omega
  have hnext2 : q.srv.next_list < 2 := by omega
  rcases hr : player_tick q with ⟨q', sent, mo⟩
  simp only [player_tick] at hr
  rw [if_neg (by simp [hplay])] at hr
  rw [if_pos hend] at hr
  rw [if_pos ⟨hready, by omega⟩] at hr
  simp only [player_dispatch] at hr
  rw [if_pos ?hcond] at hr
  case hcond =>
    refine ⟨by simp [setStatus_srv, setList_playing, hplay], ?_⟩
    rw [setStatus_srv, setList_cur_frame, setList_cur_list]
    simp only
    rw [getList_setList_other _ _ hcur hnext2 hne, getList_update3]
    exact hloaded
  rw [setStatus_srv, setList_cur_frame, setList_cur_list] at hr
  simp only at hr
  rw [getList_setList_other _ _ hcur hnext2 hne, getList_update3] at hr
  injection hr with hq' hrest
  injection hrest with hsent hmo
  subst hq'
  subst hsent
  subst hmo
  refine ⟨?_, ?_, ?_, ?_, rfl, rfl⟩
  · simp [setStatus_srv, setList_cur_list]
  · simp [setStatus_srv, setList_next_list]
  · simp [setStatus_srv, setList_cur_frame]
  · simp [setStatus_srv, setList_playing, hplay]

theorem c5_switch_same_tick_witness :
    (player_tick c5SwitchState).1.srv.cur_list = c5SwitchState.srv.next_list ∧
    (player_tick c5SwitchState).1.srv.next_list = c5SwitchState.srv.cur_list ∧
    (player_tick c5SwitchState).1.srv.cur_frame = 1 ∧
    (player_tick c5SwitchState).1.srv.playing = true ∧
    (player_tick c5SwitchState).2.2 = some (((getList c5SwitchState.srv c5SwitchState.srv.next_list).words.drop
        ((getList c5SwitchState.srv c5SwitchState.srv.next_list).offsets.getD 0 0)).take
        ((getList c5SwitchState.srv c5SwitchState.srv.next_list).counts.getD 0 0)) ∧
    (player_tick c5SwitchState).2.1 = [c5SwitchState.srv.cur_list] :=
  c5_switch_same_tick c5SwitchState (by decide) (by decide) (by decide)
    (by decide) (by decide) (by decide) (by decide)

/-! ## Claim C8: auto-start on first READY -/
/-- C8: when a list becomes READY while the player is not playing — via
the PUSH that brings `loaded_frames` up to `total_frames`, or via END on a
non-empty list — the handler starts playback with that list as current,
the other list as next, and `cur_frame = 0`
(`start_player_if_needed` only manages the thread and is not modelled). -/
theorem c8_auto_start (allocOk : Bool) (q : QState) (list_id count : Nat)
    (tmp : List Nat) :
    (q.srv.playing = false →
      (do_preload_push allocOk q list_id count tmp).1 = true →
      (getList (do_preload_push allocOk q list_id count tmp).2.1.srv list_id).loaded_frames
        = (getList (do_preload_push allocOk q list_id count tmp).2.1.srv list_id).total_frames →
      (do_preload_push allocOk q list_id count tmp).2.1.srv.playing = true ∧
      (do_preload_push allocOk q list_id count tmp).2.1.srv.cur_list = list_id ∧
      (do_preload_push allocOk q list_id count tmp).2.1.srv.next_list = 1 - list_id ∧
      (do_preload_push allocOk q list_id count tmp).2.1.srv.cur_frame = 0) ∧
    (q.srv.playing = false →
      (do_preload_end q list_id).1 = true →
      (do_preload_end q list_id).2.1.srv.playing = true ∧
      (do_preload_end q list_id).2.1.srv.cur_list = list_id ∧
      (do_preload_end q list_id).2.1.srv.next_list = 1 - list_id ∧
      (do_preload_end q list_id).2.1.srv.cur_frame = 0) := by
  constructor
  · intro hplay hok hfl
    by_cases hhdr : 1 < list_id ∨ count = 0 ∨ MAX_WORDS_PER_FRAME < count
    · rw [show do_preload_push allocOk q list_id count tmp = (false, q, []) from by
        simp [do_preload_push, hhdr]] at hok
      cases hok
    · rcases hp : push_frame allocOk (getList q.srv list_id) tmp count with ⟨ok, L1⟩
      by_cases hfull : ok = true ∧ L1.loaded_frames = L1.total_frames
      · have hres : do_preload_push allocOk q list_id count tmp = (true, { setStatus { q with srv := setList (setList q.srv list_id L1) list_id { L1 with ready := true } } list_id ListStatus.ready with srv := startPlaying (setList (setList q.srv list_id L1) list_id { L1 with ready := true }) list_id }, [list_id]) := by
          simp [do_preload_push, hhdr, hp, hfull.1, hfull.2, hplay, setStatus_srv,
            setList_playing]
        rw [hres]
        exact ⟨rfl, rfl, rfl, rfl⟩
      · have hres : do_preload_push allocOk q list_id count tmp =
            (ok, { q with srv := setList q.srv list_id L1 }, []) := by
          simp [do_preload_push, hhdr, hp, hfull]
        rw [hres] at hok hfl
        simp only at hok
        simp only [getList_setList_same] at hfl
        exact absurd ⟨hok, hfl⟩ hfull
  · intro hplay hok
    by_cases hid : 1 < list_id
    · rw [show do_preload_end q list_id = (false, q, []) from by
        simp [do_preload_end, hid]] at hok
      cases hok
    · by_cases hempty : (getList q.srv list_id).loaded_frames = 0
      · rw [show do_preload_end q list_id = (false, q, []) from by
          simp [do_preload_end, hid, hempty]] at hok
        cases hok
      · have hres : do_preload_end q list_id = (true, { setStatus { q with srv := setList q.srv list_id { getList q.srv list_id with ready := true } } list_id ListStatus.ready with srv := startPlaying (setList q.srv list_id { getList q.srv list_id with ready := true }) list_id }, [list_id]) := by
          simp [do_preload_end, hid, hempty, hplay, setStatus_srv, setList_playing]
        rw [hres]
        exact ⟨rfl, rfl, rfl, rfl⟩

/-- Witness for C8: END on `c8EndState` auto-starts the player on list 0. -/
theorem c8_auto_start_witness :
    (do_preload_end c8EndState 0).2.1.srv.playing = true ∧
    (do_preload_end c8EndState 0).2.1.srv.cur_list = 0 ∧
    (do_preload_end c8EndState 0).2.1.srv.next_list = 1 - 0 ∧
    (do_preload_end c8EndState 0).2.1.srv.cur_frame = 0 :=
  (c8_auto_start true c8EndState 0 0 []).2 rfl (by decide)

theorem getD_set_same {l : List Nat} {i : Nat} (h : i < l.length) (a d : Nat) :
    (l.set i a).getD i d = a := by
  simp [List.getD_eq_getElem?_getD, List.getElem?_set_self h]

theorem getD_set_other {l : List Nat} {i j : Nat} (h : i ≠ j) (a d : Nat) :
    (l.set i a).getD j d = l.getD j d := by
  simp [List.getD_eq_getElem?_getD, List.getElem?_set_ne h]

theorem emptyList_WF_inv : listWF emptyList ∧ listInv emptyList := by
  refine ⟨⟨rfl, rfl, rfl⟩, Nat.le_refl _, Nat.le_refl _, ?_⟩
  intro i hi
  simp [emptyList] at hi

theorem push_frame_WF_inv (allocOk : Bool) (L : AwgList) (w : List Nat) (count : Nat)
    (hWF : listWF L) (hInv : listInv L) (hw : count ≤ w.length) :
    listWF (push_frame allocOk L w count).2 ∧ listInv (push_frame allocOk L w count).2 := by
  cases hok : (push_frame allocOk L w count).1
  · rw [push_frame_false hok]
    exact ⟨hWF, hInv⟩
  · obtain ⟨halloc, hroom, hc1, hcm, cap, hcap, hres⟩ := push_frame_true hok
    rw [hres]
    obtain ⟨ho, hc, hwrd⟩ := hWF
    obtain ⟨hlt, huc, hslice⟩ := hInv
    have hmax : MAX_WORDS_PER_FRAME = 64 := rfl
    rw [hmax] at hcm
    constructor
    · refine ⟨?_, ?_, ?_⟩
      · simpa [List.length_set] using ho
      · simpa [List.length_set] using hc
      · simp only [List.length_append, List.length_take]
        omega
    · refine ⟨by simp only; omega, by simp only; omega, ?_⟩
      intro i hi
      simp only at hi ⊢
      by_cases hie : i = L.loaded_frames
      · subst hie
        rw [getD_set_same (by omega) _ _, getD_set_same (by omega) _ _]
        omega
      · have hilt : i < L.loaded_frames := by omega
        rw [getD_set_other (by omega) _ _, getD_set_other (by omega) _ _]
        have := hslice i hilt
        omega

theorem prepared_WF_inv (n : Nat) : ∀ (L0 : AwgList),
    (prepare_list_for_preload true L0 n).2.allocated = true ∧
    listWF (prepare_list_for_preload true L0 n).2 ∧
    listInv (prepare_list_for_preload true L0 n).2 := by
  intro L0
  refine ⟨rfl, ⟨?_, ?_, rfl⟩, ?_, Nat.le_refl _, ?_⟩
  · simp [prepare_list_for_preload]
  · simp [prepare_list_for_preload]
  · simp [prepare_list_for_preload, emptyList]
  · intro i hi
    simp [prepare_list_for_preload, emptyList] at hi

theorem load_zero_loop_WF_inv (allocOk : Bool) (n : Nat) :
    ∀ (L : AwgList), listWF L → listInv L →
    listWF (load_zero_loop allocOk L n).2 ∧ listInv (load_zero_loop allocOk L n).2 := by
  induction n with
  | zero =>
    intro L hWF hInv
    exact ⟨hWF, hInv⟩
  | succ n ih =>
    intro L hWF hInv
    rcases hp : push_frame allocOk L ZERO_GAIN_FRAME ZERO_GAIN_FRAME_COUNT with ⟨ok, L1⟩
    have heq : load_zero_loop allocOk L (n + 1) =
        match (ok, L1) with
        | (false, _) => (false, emptyList)
        | (true, L1) => load_zero_loop allocOk L1 n := by
      simp only [load_zero_loop, hp]
    rw [heq]
    have hpres := push_frame_WF_inv allocOk L ZERO_GAIN_FRAME ZERO_GAIN_FRAME_COUNT
      hWF hInv (Nat.le_refl _)
    rw [hp] at hpres
    cases ok
    · exact emptyList_WF_inv
    · exact ih L1 hpres.1 hpres.2

theorem load_zero_gain_list_WF_inv (allocOk : Bool) (L : AwgList) (n : Nat) :
    listWF (load_zero_gain_list allocOk L n).2 ∧
    listInv (load_zero_gain_list allocOk L n).2 := by
  cases allocOk
  · exact emptyList_WF_inv
  · show listWF (load_zero_loop true _ n).2 ∧ _
    obtain ⟨_, hWF, hInv⟩ := prepared_WF_inv n L
    exact load_zero_loop_WF_inv true n _ hWF hInv

theorem getList_setList_cases (s : AwgSrv) (i : Nat) (L : AwgList) (j : Nat) :
    getList (setList s i L) j = L ∨ getList (setList s i L) j = getList s j := by
  unfold getList setList
  by_cases hi : i = 0 <;> by_cases hj : j = 0 <;> simp [hi, hj]

theorem WF_inv_setList {s : AwgSrv} {i : Nat} {L : AwgList}
    (hL : listWF L ∧ listInv L)
    (h : ∀ k, listWF (getList s k) ∧ listInv (getList s k)) (j : Nat) :
    listWF (getList (setList s i L) j) ∧ listInv (getList (setList s i L) j) := by
  rcases getList_setList_cases s i L j with hc | hc <;> rw [hc]
  · exact hL
  · exact h j

theorem getList_set_playing (s : AwgSrv) (b : Bool) (j : Nat) :
    getList { s with playing := b } j = getList s j := by
  unfold getList
  by_cases h : j = 0 <;> simp [h]

theorem getList_set_frame (s : AwgSrv) (n j : Nat) :
    getList { s with cur_frame := n } j = getList s j := by
  unfold getList
  by_cases h : j = 0 <;> simp [h]

theorem player_tick_lists (q : QState) (j : Nat)
    (h : ∀ k, listWF (getList q.srv k) ∧ listInv (getList q.srv k)) :
    listWF (getList (player_tick q).1.srv j) ∧
    listInv (getList (player_tick q).1.srv j) := by
  rcases hr : player_tick q with ⟨q', sent, mo⟩
  simp only [player_tick] at hr
  split at hr
  · injection hr with h1 _
    subst h1
    exact h j
  · split at hr
    · split at hr
      · simp only [player_dispatch] at hr
        split at hr
        · injection hr with h1 _
          subst h1
          simp only [setStatus_srv, getList_set_frame]
          refine WF_inv_setList emptyList_WF_inv (fun k => ?_) j
          rw [getList_update3]
          exact h k
        · injection hr with h1 _
          subst h1
          simp only [setStatus_srv]
          refine WF_inv_setList emptyList_WF_inv (fun k => ?_) j
          rw [getList_update3]
          exact h k
      · injection hr with h1 _
        subst h1
        simp only [setStatus_srv]
        refine WF_inv_setList emptyList_WF_inv (fun k => ?_) j
        rw [getList_set_playing]
        exact h k
    · simp only [player_dispatch] at hr
      split at hr
      · injection hr with h1 _
        subst h1
        simp only [getList_set_frame]
        exact h j
      · injection hr with h1 _
        subst h1
        exact h j

theorem do_preload_end_lists (q : QState) (list_id j : Nat)
    (h : ∀ k, listWF (getList q.srv k) ∧ listInv (getList q.srv k)) :
    listWF (getList (do_preload_end q list_id).2.1.srv j) ∧
    listInv (getList (do_preload_end q list_id).2.1.srv j) := by
  by_cases hid : 1 < list_id
  · rw [show do_preload_end q list_id = (false, q, []) from by simp [do_preload_end, hid]]
    exact h j
  · by_cases hempty : (getList q.srv list_id).loaded_frames = 0
    · rw [show do_preload_end q list_id = (false, q, []) from by
        simp [do_preload_end, hid, hempty]]
      exact h j
    · have hready : listWF { getList q.srv list_id with ready := true } ∧
          listInv { getList q.srv list_id with ready := true } := h list_id
      by_cases hplay : q.srv.playing = true
      · have hres : do_preload_end q list_id = (true, setStatus { q with srv := setList q.srv list_id { getList q.srv list_id with ready := true } } list_id ListStatus.ready, [list_id]) := by
          simp [do_preload_end, hid, hempty, hplay, setStatus_srv, setList_playing]
        rw [hres]
        simp only [setStatus_srv]
        exact WF_inv_setList hready h j
      · have hres : do_preload_end q list_id = (true, { setStatus { q with srv := setList q.srv list_id { getList q.srv list_id with ready := true } } list_id ListStatus.ready with srv := startPlaying (setList q.srv list_id { getList q.srv list_id with ready := true }) list_id }, [list_id]) := by
          simp [do_preload_end, hid, hempty, hplay, setStatus_srv, setList_playing]
        rw [hres]
        simp only [getList_startPlaying]
        exact WF_inv_setList hready h j

/-- C9: every list operation preserves the invariant
`loaded_frames ≤ total_frames ∧ words_used ≤ words_cap ∧
∀ i < loaded_frames, offsets[i] + counts[i] ≤ words_used ∧ 1 ≤ counts[i] ≤ 64`
(together with the structural well-formedness `listWF` of the embedding):
`clear_list_fully`, `prepare_list_for_preload` (BEGIN), `push_frame`
(PUSH, under the C caller's guarantee that the source buffer holds
`count` words), `load_zero_gain_list`, `do_preload_end` (END), and the
player tick (frame advance, list switch and stop). -/
theorem c9_list_invariant_preserved :
    (∀ L : AwgList, listWF (clear_list_fully L) ∧ listInv (clear_list_fully L)) ∧
    (∀ (allocOk : Bool) (L : AwgList) (n : Nat),
      listWF (prepare_list_for_preload allocOk L n).2 ∧
      listInv (prepare_list_for_preload allocOk L n).2) ∧
    (∀ (allocOk : Bool) (L : AwgList) (w : List Nat) (count : Nat),
      listWF L → listInv L → count ≤ w.length →
      listWF (push_frame allocOk L w count).2 ∧
      listInv (push_frame allocOk L w count).2) ∧
    (∀ (allocOk : Bool) (L : AwgList) (n : Nat),
      listWF (load_zero_gain_list allocOk L n).2 ∧
      listInv (load_zero_gain_list allocOk L n).2) ∧
    (∀ (q : QState) (list_id j : Nat),
      (∀ k, listWF (getList q.srv k) ∧ listInv (getList q.srv k)) →
      listWF (getList (do_preload_end q list_id).2.1.srv j) ∧
      listInv (getList (do_preload_end q list_id).2.1.srv j)) ∧
    (∀ (q : QState) (j : Nat),
      (∀ k, listWF (getList q.srv k) ∧ listInv (getList q.srv k)) →
      listWF (getList (player_tick q).1.srv j) ∧
      listInv (getList (player_tick q).1.srv j)) := by
  refine ⟨fun L => emptyList_WF_inv, ?_, push_frame_WF_inv, load_zero_gain_list_WF_inv,
    do_preload_end_lists, player_tick_lists⟩
  intro allocOk L n
  cases allocOk
  · exact emptyList_WF_inv
  · obtain ⟨_, hWF, hInv⟩ := prepared_WF_inv n L
    exact ⟨hWF, hInv⟩

/-- Witness for C9: the push component applied to a cleared list (the
push is rejected and the empty list trivially satisfies the invariant). -/
theorem c9_list_invariant_preserved_witness :
    listWF (push_frame true emptyList [1] 1).2 ∧
    listInv (push_frame true emptyList [1] 1).2 :=
  c9_list_invariant_preserved.2.2.1 true emptyList [1] 1
    emptyList_WF_inv.1 emptyList_WF_inv.2 (by decide)

theorem ensure_words_cap_alloc_true (L : AwgList) (n : Nat) :
    (ensure_words_cap true L n).1 = true := by
  unfold ensure_words_cap
  split
  · rfl
  · simp

theorem push_frame_alloc_true (L : AwgList) (w : List Nat) (count : Nat)
    (h1 : L.allocated = true) (h2 : L.loaded_frames < L.total_frames)
    (h3 : 1 ≤ count) (h4 : count ≤ MAX_WORDS_PER_FRAME) :
    (push_frame true L w count).1 = true := by
  unfold push_frame
  rw [if_neg (by simp [h1]), if_neg (by omega), if_neg (by push_neg; omega)]
  rcases he : ensure_words_cap true L count with ⟨ok1, L1⟩
  have hok1 := ensure_words_cap_alloc_true L count
  rw [he] at hok1
  simp only at hok1
  subst hok1
  rfl

theorem load_zero_loop_char : ∀ (n : Nat), ∀ (L : AwgList),
    L.allocated = true →
    L.total_frames = L.loaded_frames + n →
    L.offsets.length = L.total_frames →
    L.counts.length = L.total_frames →
    ∃ L', load_zero_loop true L n = (true, L') ∧
      L'.ready = true ∧
      L'.total_frames = L.total_frames ∧
      L'.loaded_frames = L.loaded_frames + n ∧
      L'.words = L.words ++ (List.replicate n ZERO_GAIN_FRAME).flatten ∧
      (∀ i, i < L.loaded_frames →
        L'.offsets.getD i 0 = L.offsets.getD i 0 ∧
        L'.counts.getD i 0 = L.counts.getD i 0) ∧
      (0 < n → L'.offsets.getD L.loaded_frames 0 = L.words_used ∧
        L'.counts.getD L.loaded_frames 0 = ZERO_GAIN_FRAME_COUNT) := by
  intro n
  induction n with
  | zero =>
    intro L ha ht ho hc
    refine ⟨{ L with ready := true }, rfl, rfl, rfl, rfl, by simp,
      fun i _ => ⟨rfl, rfl⟩, fun h => absurd h (by decide)⟩
  | succ n ih =>
    intro L ha ht ho hc
    have h33a : 1 ≤ ZERO_GAIN_FRAME_COUNT := by decide
    have h33b : ZERO_GAIN_FRAME_COUNT ≤ MAX_WORDS_PER_FRAME := by decide
    have hsucc := push_frame_alloc_true L ZERO_GAIN_FRAME ZERO_GAIN_FRAME_COUNT
      ha (by omega) h33a h33b
    obtain ⟨_, _, _, _, cap, hcap, hres⟩ := push_frame_true hsucc
    rcases hp : push_frame true L ZERO_GAIN_FRAME ZERO_GAIN_FRAME_COUNT with ⟨ok, L1⟩
    rw [hp] at hsucc hres
    simp only at hsucc hres
    subst hsucc
    have hload1 : L1.loaded_frames = L.loaded_frames + 1 := by rw [hres]
    have htot1 : L1.total_frames = L.total_frames := by rw [hres]
    have ha1 : L1.allocated = true := by rw [hres]; exact ha
    have hw1 : L1.words = L.words ++ ZERO_GAIN_FRAME := by
      rw [hres]
      show L.words ++ ZERO_GAIN_FRAME.take ZERO_GAIN_FRAME.length = L.words ++ ZERO_GAIN_FRAME
      rw [List.take_length]
    have ho1 : L1.offsets.length = L1.total_frames := by
      rw [hres]
      simp only [List.length_set]
      exact ho
    have hc1 : L1.counts.length = L1.total_frames := by
      rw [hres]
      simp only [List.length_set]
      exact hc
    have ht1 : L1.total_frames = L1.loaded_frames + n := by
      rw [htot1, hload1]
      omega
    obtain ⟨L', hL', hready, htotL, hloadL, hwordsL, hkeepL, hfirstL⟩ :=
      ih L1 ha1 ht1 ho1 hc1
    have heq : load_zero_loop true L (n + 1) = load_zero_loop true L1 n := by
      simp only [load_zero_loop, hp]
    refine ⟨L', by rw [heq]; exact hL', hready, ?_, ?_, ?_, ?_, ?_⟩
    · rw [htotL, htot1]
    · rw [hloadL, hload1]
      omega
    · rw [hwordsL, hw1, List.replicate_succ, List.flatten_cons, List.append_assoc]
    · intro i hi
      have h1 := hkeepL i (by omega)
      have h2 : L1.offsets.getD i 0 = L.offsets.getD i 0 := by
        rw [hres]
        exact getD_set_other (by omega) _ _
      have h3 : L1.counts.getD i 0 = L.counts.getD i 0 := by
        rw [hres]
        exact getD_set_other (by omega) _ _
      exact ⟨h1.1.trans h2, h1.2.trans h3⟩
    · intro _
      have h1 := hkeepL L.loaded_frames (by omega)
      have h2 : L1.offsets.getD L.loaded_frames 0 = L.words_used := by
        rw [hres]
        exact getD_set_same (by omega) _ _
      have h3 : L1.counts.getD L.loaded_frames 0 = ZERO_GAIN_FRAME_COUNT := by
        rw [hres]
        exact getD_set_same (by omega) _ _
      exact ⟨h1.1.trans h2, h1.2.trans h3⟩

theorem load_zero_gain_list_char (L : AwgList) (n : Nat) (hn : 0 < n) :
    ∃ L', load_zero_gain_list true L n = (true, L') ∧
      L'.ready = true ∧ L'.total_frames = n ∧ L'.loaded_frames = n ∧
      (L'.words.drop (L'.offsets.getD 0 0)).take (L'.counts.getD 0 0)
        = ZERO_GAIN_FRAME := by
  obtain ⟨L', hL', hready, htot, hload, hwords, _, hfirst⟩ :=
    load_zero_loop_char n
      { emptyList with offsets := List.replicate n 0, counts := List.replicate n 0, allocated := true, total_frames := n }
      rfl (by show n = 0 + n; omega) (by simp) (by simp)
  refine ⟨L', hL', hready, ?_, ?_, ?_⟩
  · rw [htot]
  · rw [hload]
    show 0 + n = n
    omega
  · obtain ⟨hoff, hcnt⟩ := hfirst hn
    have hoff2 : L'.offsets.getD 0 0 = 0 := hoff
    have hcnt2 : L'.counts.getD 0 0 = ZERO_GAIN_FRAME_COUNT := hcnt
    rw [hoff2, hcnt2, hwords]
    obtain ⟨m, rfl⟩ : ∃ m, n = m + 1 := ⟨n - 1, by omega⟩
    show ((([] : List Nat) ++ (List.replicate (m + 1) ZERO_GAIN_FRAME).flatten).drop 0).take
      ZERO_GAIN_FRAME.length = ZERO_GAIN_FRAME
    rw [List.nil_append, List.drop_zero, List.replicate_succ, List.flatten_cons]
    exact List.take_left ZERO_GAIN_FRAME _

theorem wait_idle_succ (i fuel : Nat) (q : QState) (h : ¬ getStatus q i = .idle) :
    wait_idle i (fuel + 1) q =
      ((wait_idle i fuel (player_tick q).1).1,
        (player_tick q).2.2.toList ++ (wait_idle i fuel (player_tick q).1).2) := by
  simp only [wait_idle, if_neg h]

theorem player_tick_first_frame (q : QState)
    (hplay : q.srv.playing = true) (hframe : q.srv.cur_frame = 0)
    (hready : (getList q.srv q.srv.cur_list).ready = true)
    (htot : 0 < (getList q.srv q.srv.cur_list).total_frames)
    (hload : 0 < (getList q.srv q.srv.cur_list).loaded_frames) :
    (player_tick q).2.2 =
      some (((getList q.srv q.srv.cur_list).words.drop
        ((getList q.srv q.srv.cur_list).offsets.getD 0 0)).take
        ((getList q.srv q.srv.cur_list).counts.getD 0 0)) := by
  simp only [player_tick]
  rw [if_neg (by simp [hplay])]
  rw [if_neg (by push_neg; exact ⟨by simp [hready], by omega⟩)]
  simp only [player_dispatch]
  rw [if_pos ⟨hplay, by rw [hframe]; exact hload⟩]
  rw [hframe]

/-- Phase 2 always ends with both lists cleared, the player stopped and
both statuses IDLE, and only appends to the MMIO output. -/
theorem do_reset_phase2_char (q2 : QState) (out1 : List (List Nat)) :
    (do_reset_phase2 true q2 out1).1.srv.playing = false ∧
    getList (do_reset_phase2 true q2 out1).1.srv 0 = emptyList ∧
    getList (do_reset_phase2 true q2 out1).1.srv 1 = emptyList ∧
    getStatus (do_reset_phase2 true q2 out1).1 0 = .idle ∧
    getStatus (do_reset_phase2 true q2 out1).1 1 = .idle ∧
    ∃ out2, (do_reset_phase2 true q2 out1).2 = out1 ++ out2 := by
  obtain ⟨L1, hL1, _, _, _, _⟩ :=
    load_zero_gain_list_char (getList q2.srv 1) SHUTDOWN_FLUSH_FRAMES (by decide)
  have heq : do_reset_phase2 true q2 out1 =
      (setStatus (setStatus { (wait_idle 1 (SHUTDOWN_FLUSH_FRAMES + 2) (setStatus (setStatus { q2 with srv := { setList { q2.srv with playing := false } 1 L1 with playing := true, cur_list := 1, next_list := 0, cur_frame := 0 } } 0 .idle) 1 .ready)).1 with srv := setList (setList { (wait_idle 1 (SHUTDOWN_FLUSH_FRAMES + 2) (setStatus (setStatus { q2 with srv := { setList { q2.srv with playing := false } 1 L1 with playing := true, cur_list := 1, next_list := 0, cur_frame := 0 } } 0 .idle) 1 .ready)).1.srv with playing := false } 0 emptyList) 1 emptyList } 0 .idle) 1 .idle,
        out1 ++ (wait_idle 1 (SHUTDOWN_FLUSH_FRAMES + 2) (setStatus (setStatus { q2 with srv := { setList { q2.srv with playing := false } 1 L1 with playing := true, cur_list := 1, next_list := 0, cur_frame := 0 } } 0 .idle) 1 .ready)).2) := by
    simp only [do_reset_phase2, hL1]
  rw [heq]
  exact ⟨rfl, rfl, rfl, rfl, rfl, _, rfl⟩

/-! ## Claim C7: state and MMIO output after RESET -/
/-- C7: after `do_reset` (allocation succeeding, as in normal operation)
both lists are fully cleared (`loaded_frames = total_frames = 0`, buffers
freed), `playing` is false, both statuses are IDLE, and the words
delivered to the MMIO layer during the reset contain at least one full
silence frame (`ZERO_GAIN_FRAME`). -/
theorem c7_reset_silences_and_clears (q : QState) :
    (do_reset true q).1.srv.playing = false ∧
    getList (do_reset true q).1.srv 0 = emptyList ∧
    getList (do_reset true q).1.srv 1 = emptyList ∧
    (getList (do_reset true q).1.srv 0).loaded_frames = 0 ∧
    (getList (do_reset true q).1.srv 0).total_frames = 0 ∧
    (getList (do_reset true q).1.srv 1).loaded_frames = 0 ∧
    (getList (do_reset true q).1.srv 1).total_frames = 0 ∧
    getStatus (do_reset true q).1 0 = .idle ∧
    getStatus (do_reset true q).1 1 = .idle ∧
    ZERO_GAIN_FRAME ∈ (do_reset true q).2 := by
  obtain ⟨L0, hL0, hready0, htot0, hload0, hslice0⟩ :=
    load_zero_gain_list_char (getList (do_reset_cleared_srv q.srv) 0)
      SHUTDOWN_FLUSH_FRAMES (by decide)
  have heq : do_reset true q =
      do_reset_phase2 true
        (wait_idle 0 (SHUTDOWN_FLUSH_FRAMES + 2) (setStatus (setStatus { q with srv := { setList (do_reset_cleared_srv q.srv) 0 L0 with playing := true, cur_list := 0, next_list := 1, cur_frame := 0 } } 0 .ready) 1 .idle)).1
        (wait_idle 0 (SHUTDOWN_FLUSH_FRAMES + 2) (setStatus (setStatus { q with srv := { setList (do_reset_cleared_srv q.srv) 0 L0 with playing := true, cur_list := 0, next_list := 1, cur_frame := 0 } } 0 .ready) 1 .idle)).2 := by
    simp only [do_reset, hL0]
  obtain ⟨hplay, hl0, hl1, hs0, hs1, out2, hout⟩ :=
    do_reset_phase2_char
      (wait_idle 0 (SHUTDOWN_FLUSH_FRAMES + 2) (setStatus (setStatus { q with srv := { setList (do_reset_cleared_srv q.srv) 0 L0 with playing := true, cur_list := 0, next_list := 1, cur_frame := 0 } } 0 .ready) 1 .idle)).1
      (wait_idle 0 (SHUTDOWN_FLUSH_FRAMES + 2) (setStatus (setStatus { q with srv := { setList (do_reset_cleared_srv q.srv) 0 L0 with playing := true, cur_list := 0, next_list := 1, cur_frame := 0 } } 0 .ready) 1 .idle)).2
  rw [heq]
  refine ⟨hplay, hl0, hl1, by rw [hl0]; rfl, by rw [hl0]; rfl, by rw [hl1]; rfl,
    by rw [hl1]; rfl, hs0, hs1, ?_⟩
  rw [hout]
  have hw := wait_idle_succ 0 (SHUTDOWN_FLUSH_FRAMES + 1)
    (setStatus (setStatus { q with srv := { setList (do_reset_cleared_srv q.srv) 0 L0 with playing := true, cur_list := 0, next_list := 1, cur_frame := 0 } } 0 .ready) 1 .idle)
    (by simp [getStatus, setStatus])
  have hmo : (player_tick (setStatus (setStatus { q with srv := { setList (do_reset_cleared_srv q.srv) 0 L0 with playing := true, cur_list := 0, next_list := 1, cur_frame := 0 } } 0 .ready) 1 .idle)).2.2 = some ZERO_GAIN_FRAME := by
    rw [player_tick_first_frame (setStatus (setStatus { q with srv := { setList (do_reset_cleared_srv q.srv) 0 L0 with playing := true, cur_list := 0, next_list := 1, cur_frame := 0 } } 0 .ready) 1 .idle) rfl rfl hready0
      (show 0 < L0.total_frames by rw [htot0]; decide)
      (show 0 < L0.loaded_frames by rw [hload0]; decide)]
    exact congrArg some hslice0
  rw [show (SHUTDOWN_FLUSH_FRAMES + 2) = (SHUTDOWN_FLUSH_FRAMES + 1) + 1 from rfl, hw, hmo]
  exact List.mem_append_left _ (List.mem_cons_self _ _)

/-- Witness for C7 at the initial state. -/
theorem c7_reset_silences_and_clears_witness :
    (do_reset true initState).1.srv.playing = false ∧
    ZERO_GAIN_FRAME ∈ (do_reset true initState).2 :=
  ⟨(c7_reset_silences_and_clears initState).1,
    (c7_reset_silences_and_clears initState).2.2.2.2.2.2.2.2.2⟩

/-! ## Claim C3: notification format and edge triggering -/
/-- C3 counterexample: with both lists IDLE and a freshly attached
subscriber, the notification server delivers the line `"IDLE\n"` — a
system-wide status, not one of the `LIST<id>:<STATE>` lines the claim
describes — and with no list IDLE it delivers `"FULL\n"`. -/
theorem c3_notify_not_list_lines :
    (send_system_status .idle .idle ⟨true, none⟩ true).2 = some "IDLE\n" ∧
    "IDLE\n" ∉ specListStatusLines ∧
    (send_system_status .loading .ready ⟨true, none⟩ true).2 = some "FULL\n" ∧
    "FULL\n" ∉ specListStatusLines := by
  refine ⟨rfl, by decide, rfl, by decide⟩

/-- C3 amended: every line emitted on the notification port is `"IDLE\n"`
or `"FULL\n"` — the system-wide status, IDLE iff at least one list is
IDLE and FULL otherwise — not a per-list `LIST<id>:<STATE>` line; and a
line is delivered iff a subscriber is connected, the current system
status differs from the single cached last-sent value, and the send
succeeds. The delivered line is always the line of the current system
status. (The per-list protocol of the claim belongs to a
`send_status_update` notifier variant absent from the tree.) -/
theorem c3_notify_system_status (status0 status1 : ListStatus)
    (ns : NotifyState) (sendOk : Bool) :
    ((send_system_status status0 status1 ns sendOk).2 = none ∨
      (send_system_status status0 status1 ns sendOk).2 =
        some (statusLine (systemStatusOf status0 status1))) ∧
    (statusLine (systemStatusOf status0 status1) = "IDLE\n" ∨
      statusLine (systemStatusOf status0 status1) = "FULL\n") ∧
    ((send_system_status status0 status1 ns sendOk).2.isSome = true ↔
      ns.connected = true ∧ some (systemStatusOf status0 status1) ≠ ns.lastSent ∧
      sendOk = true) ∧
    (systemStatusOf status0 status1 = .idle ↔
      (status0 = .idle ∨ status1 = .idle)) := by
  obtain ⟨c, ls⟩ := ns
  cases status0 <;> cases status1 <;> cases c <;> cases sendOk <;>
    rcases ls with _ | s <;> first | decide | (cases s <;> decide)

/-- Witness for C3's amended theorem at a concrete input: a connected
subscriber with stale cache receives the FULL line. -/
theorem c3_notify_system_status_witness :
    (send_system_status .ready .loading ⟨true, some .idle⟩ true).2 = none ∨
    (send_system_status .ready .loading ⟨true, some .idle⟩ true).2 =
      some (statusLine (systemStatusOf .ready .loading)) :=
  (c3_notify_system_status .ready .loading ⟨true, some .idle⟩ true).1

end AWG
